import Mathlib

/-
  Verification development for the goesl FreeSWITCH event-socket client.
  The Go source is shallowly embedded: Go strings and byte slices are
  modelled as Lean strings over their character lists (all protocol data in
  scope is single-byte), maps as association lists in iteration order, and
  fallible operations return Option or Except.  A Go runtime panic is a
  distinct outcome and is modelled explicitly.
-/

set_option maxRecDepth 4000

namespace Goesl

/-- Does the first character list start with the second?  Helper for the
strings.Contains model. -/
def startsWithL : List Char → List Char → Bool
  | _, [] => true
  | [], _ :: _ => false
  | a :: as, b :: bs => a == b && startsWithL as bs

/-- strings.Contains on character lists: substring occurrence test. -/
def containsSub : List Char → List Char → Bool
  | [], pat => pat.isEmpty
  | c :: rest, pat => startsWithL (c :: rest) pat || containsSub rest pat

/-- strings.Contains: does s contain pat as a substring? -/
def strContains (s pat : String) : Bool :=
  containsSub s.data pat.data

/-- Go string slicing of the form s take positions from n on: defined only
when n does not exceed the length; an out-of-range start index is a runtime
panic in Go, modelled as none. -/
def goSliceFrom (s : String) (n : Nat) : Option String :=
  if n ≤ s.data.length then some ⟨s.data.drop n⟩ else none

/-- Hexadecimal digit test, as net/url ishex. -/
def isHexChar (c : Char) : Bool :=
  c.isDigit || ('a' ≤ c && c ≤ 'f') || ('A' ≤ c && c ≤ 'F')

/-- Hexadecimal digit value, as net/url unhex. -/
def hexVal (c : Char) : Nat :=
  if c.isDigit then c.toNat - '0'.toNat
  else if 'a' ≤ c && c ≤ 'f' then c.toNat - 'a'.toNat + 10
  else c.toNat - 'A'.toNat + 10

/-- net/url unescape in query or path mode: a percent sign must be followed
by two hex digits, otherwise the whole call fails (none, matching the error
return paired with an empty string result in Go); in query mode a plus
becomes a space, in path mode it is kept. -/
def unescapeL (plusToSpace : Bool) : List Char → Option (List Char)
  | [] => some []
  | '%' :: a :: b :: rest =>
    if isHexChar a && isHexChar b then
      (unescapeL plusToSpace rest).map (fun t => Char.ofNat (16 * hexVal a + hexVal b) :: t)
    else none
  | '%' :: _ => none
  | '+' :: rest =>
    (unescapeL plusToSpace rest).map (fun t => (if plusToSpace then ' ' else '+') :: t)
  | c :: rest => (unescapeL plusToSpace rest).map (fun t => c :: t)

/-- url.QueryUnescape; none models the error return. -/
def queryUnescape (s : String) : Option String :=
  (unescapeL true s.data).map (fun l => ⟨l⟩)

/-- url.PathUnescape; none models the error return. -/
def pathUnescape (s : String) : Option String :=
  (unescapeL false s.data).map (fun l => ⟨l⟩)

/-- Decimal digit run for the strconv.Atoi model; none when empty or when a
non-digit occurs. -/
def digitsToNat : List Char → Option Nat
  | [] => none
  | ds =>
    if ds.all Char.isDigit then
      some (ds.foldl (fun a c => 10 * a + (c.toNat - '0'.toNat)) 0)
    else none

/-- strconv.Atoi: an optional sign followed by decimal digits.  Machine-int
overflow is not modelled; no claim in scope depends on it. -/
def atoi (s : String) : Option Int :=
  match s.data with
  | '+' :: rest => (digitsToNat rest).map (fun n => (n : Int))
  | '-' :: rest => (digitsToNat rest).map (fun n => -(n : Int))
  | l => (digitsToNat l).map (fun n => (n : Int))

/-- textproto MIMEHeader.Get: the first value stored for the key, or the
empty string when the key is absent.  Headers are modelled as association
lists in read order, one value per occurrence (the source only ever uses the
first value); Get callers in the source pass already-canonical key names. -/
def hGet (h : List (String × String)) (k : String) : String :=
  match h.lookup k with
  | some v => v
  | none => ""

/-- The content-type allow list of response.go. -/
def AllowedContentTypes : List String :=
  ["auth/request", "command/reply", "api/response", "text/disconnect-notice",
   "text/event-plain", "text/event-json", "text/event-xml"]

/-- IsExistInSlice from the source: linear membership scan. -/
def IsExistInSlice (s : String) (list : List String) : Bool :=
  list.any (fun v => v == s)

/-- One step of the header-copy loop of ParseResponse (response.go lines
103-113): the raw value is stored first, then a value containing a percent
sign is replaced by the result of url.QueryUnescape; when decoding fails the
Go multiple assignment has already stored QueryUnescape's zero string result,
so the entry ends up empty and the failure itself is only logged. -/
def processVal (v : String) : String :=
  if strContains v "%" then
    match queryUnescape v with
    | some d => d
    | none => ""
  else v

/-- The whole header-copy loop of ParseResponse: every header entry is copied
with processVal applied to its value. -/
def processHeaders (h : List (String × String)) : List (String × String) :=
  h.map (fun kv => (kv.1, processVal kv.2))

/-- ESLResponse: the parsed frame, a header mapping plus a body. -/
structure ESLResponse where
  Headers : List (String × String)
  Body : String
deriving DecidableEq, Repr

/-- Result of ParseResponse: a parsed response together with the unread
remainder of the stream, an error return, or a Go runtime panic. -/
inductive ParseOutcome where
  | ok : ESLResponse → List Char → ParseOutcome
  | err : String → ParseOutcome
  | crash : String → ParseOutcome
deriving DecidableEq, Repr

/-- Result of the Content-Length body read stage. -/
inductive BodyRead where
  | errRes : String → BodyRead
  | crashRes : String → BodyRead
  | done : String → List Char → BodyRead
deriving DecidableEq, Repr

/-- Content-Length handling of ParseResponse (response.go lines 86-96): the
header value goes through strconv.Atoi (an error return aborts the parse),
then the body buffer is allocated with make, which panics on a negative
length, and filled with io.ReadFull; a stream shorter than the declared
length is an error return (Go pairs it with the partial response). -/
def bodyRead (clStr : String) (stream : List Char) : BodyRead :=
  if clStr = "" then .done "" stream
  else
    match atoi clStr with
    | none => .errRes ("invalid syntax : " ++ clStr)
    | some n =>
      if n < 0 then .crashRes "makeslice: len out of range"
      else if stream.length < n.toNat then .errRes "unexpected EOF"
      else .done ⟨stream.take n.toNat⟩ (stream.drop n.toNat)

/-- Space or horizontal tab. -/
def isWspChar (c : Char) : Bool := c == ' ' || c == '\t'

/-- Drop one trailing carriage return, as the line reader does before the
newline it found. -/
def dropTrailingCR (l : List Char) : List Char :=
  if l.getLast? = some '\r' then l.dropLast else l

/-- Split at the first newline: the prefix line and, when a newline was
found, the remainder after it. -/
def splitLine : List Char → List Char × Option (List Char)
  | [] => ([], none)
  | '\n' :: rest => ([], some rest)
  | c :: rest =>
    let p := splitLine rest
    (c :: p.1, p.2)

/-- The bufio and textproto line read: none at end of input; a final line
with no newline is still returned; a carriage return directly before the
newline is stripped. -/
def readLine : List Char → Option (List Char × List Char)
  | [] => none
  | c :: rest =>
    match splitLine (c :: rest) with
    | (line, some after) => some (dropTrailingCR line, after)
    | (line, none) => some (line, [])

/-- Trim spaces and tabs at both ends, as textproto trim. -/
def trimWsp (l : List Char) : List Char :=
  ((l.dropWhile isWspChar).reverse.dropWhile isWspChar).reverse

/-- Folding of continuation lines in textproto readContinuedLineSlice: while
the next physical line starts with a space or tab, its trimmed content is
appended after a single space. -/
def foldContinuations (fuel : Nat) (acc : List Char) (s : List Char) : List Char × List Char :=
  match fuel with
  | 0 => (acc, s)
  | fuel + 1 =>
    match readLine s with
    | some (l, after) =>
      if l ≠ [] && isWspChar (l.headD ' ') then
        foldContinuations fuel (acc ++ ' ' :: trimWsp l) after
      else (acc, s)
    | none => (acc, s)

/-- textproto readContinuedLineSlice: one logical header line with its
continuations folded in; an empty physical line is returned as the empty
terminator; none models the error return at end of input. -/
def readContinued (fuel : Nat) (s : List Char) : Option (List Char × List Char) :=
  match readLine s with
  | none => none
  | some (l, after) =>
    if l = [] then some ([], after)
    else
      let p := foldContinuations fuel (trimWsp l) after
      some (p.1, p.2)

/-- Split a header line at its first colon; none when no colon occurs,
which textproto reports as a malformed header line. -/
def splitAtColon : List Char → Option (List Char × List Char)
  | [] => none
  | ':' :: rest => some ([], rest)
  | c :: rest => (splitAtColon rest).map (fun p => (c :: p.1, p.2))

/-- The token characters accepted by textproto canonicalisation. -/
def validTokenChar (c : Char) : Bool :=
  c.isAlphanum || c == '!' || c == '#' || c == '$' || c == '%' || c == '&' ||
  c.toNat == 39 || c == '*' || c == '+' || c == '-' || c == '.' || c == '^' ||
  c == '_' || c.toNat == 96 || c == '|' || c == '~'

/-- Character canonicalisation after the textproto rule: the first letter
and every letter after a hyphen are upper-cased, the rest lower-cased. -/
def canonChars : Bool → List Char → List Char
  | _, [] => []
  | up, c :: rest => (if up then c.toUpper else c.toLower) :: canonChars (c == '-') rest

/-- textproto CanonicalMIMEHeaderKey: canonicalised when every character is
a token character, returned unchanged otherwise. -/
def canonicalMIMEHeaderKey (k : String) : String :=
  if k.data.all validTokenChar then ⟨canonChars true k.data⟩ else k

/-- The loop of textproto ReadMIMEHeader: logical lines until the blank
terminator; a missing colon or end of input is an error (none).  Fuel is
spent once per logical line; callers supply length-based fuel that cannot
run out. -/
def readMIMEHeaderLoop (fuel : Nat) (acc : List (String × String)) (s : List Char) :
    Option (List (String × String) × List Char) :=
  match fuel with
  | 0 => none
  | fuel + 1 =>
    match readContinued s.length s with
    | none => none
    | some (kv, after) =>
      if kv = [] then some (acc, after)
      else
        match splitAtColon kv with
        | none => none
        | some (k, v) =>
          readMIMEHeaderLoop fuel
            (acc ++ [(canonicalMIMEHeaderKey ⟨k⟩, ⟨v.dropWhile isWspChar⟩)]) after

/-- textproto ReadMIMEHeader on in-memory input: the header entries in read
order together with the input remaining after the blank line; none models
the error return (end of input before the blank line, a line without a
colon, or an initial continuation line). -/
def readMIMEHeader (s : List Char) : Option (List (String × String) × List Char) :=
  if isWspChar (s.headD 'a') then none
  else readMIMEHeaderLoop (s.length + 1) [] s

/-- The text/event-plain arm of ParseResponse (response.go lines 146-166):
the body is re-read as a MIME header block, then an inner Content-Length is
honoured; every error message appends the current body with its first five
bytes sliced away, which panics whenever that body is shorter than five
bytes; on the short-read path the body variable has already been replaced by
the partially filled zero-padded buffer. -/
def eventPlainStage (headers0 : List (String × String)) (body : String) (rest : List Char) :
    ParseOutcome :=
  match readMIMEHeader body.data with
  | none =>
    match goSliceFrom body 5 with
    | some t => .err ("could not read headers : " ++ t)
    | none => .crash "slice bounds out of range"
  | some (emh, after) =>
    if hGet emh "Content-Length" = "" then .ok ⟨headers0, body⟩ rest
    else
      match atoi (hGet emh "Content-Length") with
      | none =>
        match goSliceFrom body 5 with
        | some t => .err ("invalid content-length : " ++ t)
        | none => .crash "slice bounds out of range"
      | some n =>
        if n < 0 then .crash "makeslice: len out of range"
        else if after.length < n.toNat then
          match goSliceFrom ⟨after ++ List.replicate (n.toNat - after.length) (Char.ofNat 0)⟩ 5 with
          | some t => .err ("could not read body : " ++ t)
          | none => .crash "slice bounds out of range"
        else .ok ⟨headers0, ⟨after.take n.toNat⟩⟩ rest

/-- JSON values as encoding/json produces them for a string-keyed map of
interface values; the numeric payload is kept as its literal text (the Go
float value plays no role in any claim). -/
inductive JSValue where
  | str : String → JSValue
  | num : String → JSValue
  | bool : Bool → JSValue
  | null : JSValue
  | arr : List JSValue → JSValue
  | obj : List (String × JSValue) → JSValue

/-- JSON whitespace skip. -/
def skipWs : List Char → List Char :=
  List.dropWhile (fun c => c == ' ' || c == '\t' || c == '\n' || c == '\r')

/-- Four hex digits of a unicode escape. -/
def parseHex4 : List Char → Option (Nat × List Char)
  | a :: b :: c :: d :: rest =>
    if isHexChar a && isHexChar b && isHexChar c && isHexChar d then
      some ((((hexVal a * 16 + hexVal b) * 16 + hexVal c) * 16 + hexVal d), rest)
    else none
  | _ => none

/-- JSON string contents after the opening quote, with the standard escapes;
surrogate pairs are not combined (claim inputs stay in ASCII). -/
def parseJStringRest (fuel : Nat) (acc : List Char) (s : List Char) : Option (String × List Char) :=
  match fuel with
  | 0 => none
  | fuel + 1 =>
    match s with
    | [] => none
    | '"' :: rest => some (⟨acc.reverse⟩, rest)
    | '\\' :: e :: rest =>
      match e with
      | '"' => parseJStringRest fuel ('"' :: acc) rest
      | '\\' => parseJStringRest fuel ('\\' :: acc) rest
      | '/' => parseJStringRest fuel ('/' :: acc) rest
      | 'b' => parseJStringRest fuel (Char.ofNat 8 :: acc) rest
      | 'f' => parseJStringRest fuel (Char.ofNat 12 :: acc) rest
      | 'n' => parseJStringRest fuel ('\n' :: acc) rest
      | 'r' => parseJStringRest fuel ('\r' :: acc) rest
      | 't' => parseJStringRest fuel ('\t' :: acc) rest
      | 'u' =>
        match parseHex4 rest with
        | some (n, rest2) => parseJStringRest fuel (Char.ofNat n :: acc) rest2
        | none => none
      | _ => none
    | c :: rest => parseJStringRest fuel (c :: acc) rest

/-- Characters a JSON numeric literal may use; the literal is collected
leniently, its inner syntax playing no role in any claim. -/
def numChar (c : Char) : Bool :=
  c.isDigit || c == '-' || c == '+' || c == '.' || c == 'e' || c == 'E'

/-- A JSON numeric literal as its text. -/
def parseJNumber (s : List Char) : Option (String × List Char) :=
  let ds := s.takeWhile numChar
  if ds = [] then none else some (⟨ds⟩, s.dropWhile numChar)

/-- Insert or overwrite a member, as repeated keys behave in encoding/json
where the later member wins. -/
def insertReplace (l : List (String × JSValue)) (k : String) (v : JSValue) :
    List (String × JSValue) :=
  if l.any (fun p => p.1 == k) then
    l.map (fun p => if p.1 == k then (k, v) else p)
  else l ++ [(k, v)]

/-- Parser work items: a single value, the items of an array after the first
bracket, or the members of an object after the first brace. -/
inductive JMode where
  | value : JMode
  | arrItems : List JSValue → JMode
  | objItems : List (String × JSValue) → JMode

/-- Recursive-descent JSON parser over fuel (structural, so the kernel can
evaluate it); callers pass length-proportional fuel that cannot run out on
well-formed input. -/
def parseJ : Nat → JMode → List Char → Option (JSValue × List Char)
  | 0, _, _ => none
  | fuel + 1, .value, s =>
    match skipWs s with
    | '"' :: rest => (parseJStringRest (rest.length + 1) [] rest).map (fun p => (.str p.1, p.2))
    | '{' :: rest =>
      match skipWs rest with
      | '}' :: rest2 => some (.obj [], rest2)
      | _ => parseJ fuel (.objItems []) rest
    | '[' :: rest =>
      match skipWs rest with
      | ']' :: rest2 => some (.arr [], rest2)
      | _ => parseJ fuel (.arrItems []) rest
    | 't' :: 'r' :: 'u' :: 'e' :: rest => some (.bool true, rest)
    | 'f' :: 'a' :: 'l' :: 's' :: 'e' :: rest => some (.bool false, rest)
    | 'n' :: 'u' :: 'l' :: 'l' :: rest => some (.null, rest)
    | other => (parseJNumber other).map (fun p => (.num p.1, p.2))
  | fuel + 1, .objItems acc, s =>
    match skipWs s with
    | '"' :: rest =>
      match parseJStringRest (rest.length + 1) [] rest with
      | none => none
      | some (k, rest2) =>
        match skipWs rest2 with
        | ':' :: rest3 =>
          match parseJ fuel .value rest3 with
          | none => none
          | some (v, rest4) =>
            match skipWs rest4 with
            | ',' :: rest5 => parseJ fuel (.objItems (insertReplace acc k v)) rest5
            | '}' :: rest5 => some (.obj (insertReplace acc k v), rest5)
            | _ => none
        | _ => none
    | _ => none
  | fuel + 1, .arrItems acc, s =>
    match parseJ fuel .value s with
    | none => none
    | some (v, rest) =>
      match skipWs rest with
      | ',' :: rest2 => parseJ fuel (.arrItems (acc ++ [v])) rest2
      | ']' :: rest2 => some (.arr (acc ++ [v]), rest2)
      | _ => none

/-- encoding/json Unmarshal into a Go string-keyed map of interface values:
the document must be one JSON value followed only by whitespace; an object
yields its members, the literal null leaves the map untouched (so empty),
and any other top-level value is an error. -/
def jsonUnmarshalMap (s : String) : Option (List (String × JSValue)) :=
  match parseJ (2 * s.data.length + 8) .value s.data with
  | none => none
  | some (v, rest) =>
    if skipWs rest ≠ [] then none
    else
      match v with
      | .obj kvs => some kvs
      | .null => some []
      | _ => none

/-- The string-valued members of a decoded object, in order; the non-string
members are dropped (the source only logs them). -/
def strHeaders (kvs : List (String × JSValue)) : List (String × String) :=
  kvs.filterMap (fun kv =>
    match kv.2 with
    | .str s => some (kv.1, s)
    | _ => none)

/-- The text/event-json arm of ParseResponse (response.go lines 126-145):
string-valued members become headers; then, only when the reserved member
has a non-empty value, the body is taken from it and the member is deleted,
otherwise the body is emptied and the member, if present, stays. -/
def eventJsonTransform (kvs : List (String × JSValue)) : List (String × String) × String :=
  if hGet (strHeaders kvs) "_body" ≠ "" then
    ((strHeaders kvs).filter (fun p => p.1 != "_body"), hGet (strHeaders kvs) "_body")
  else (strHeaders kvs, "")

/-- The content-type switch of ParseResponse (response.go lines 115-167). -/
def typeSwitch (contentType : String) (header headers0 : List (String × String))
    (body : String) (rest : List Char) : ParseOutcome :=
  if contentType = "command/reply" then
    if strContains (hGet header "Reply-Text") "-ERR" then
      match goSliceFrom (hGet header "Reply-Text") 5 with
      | some t => .err ("unsuccessful reply : " ++ t)
      | none => .crash "slice bounds out of range"
    else .ok ⟨headers0, body⟩ rest
  else if contentType = "api/response" then
    if strContains body "-ERR" then
      match goSliceFrom body 5 with
      | some t => .err ("unsuccessful reply : " ++ t)
      | none => .crash "slice bounds out of range"
    else .ok ⟨headers0, body⟩ rest
  else if contentType = "text/event-json" then
    match jsonUnmarshalMap body with
    | none => .err "json unmarshal error"
    | some kvs => .ok ⟨(eventJsonTransform kvs).1, (eventJsonTransform kvs).2⟩ rest
  else if contentType = "text/event-plain" then
    eventPlainStage headers0 body rest
  else .ok ⟨headers0, body⟩ rest

/-- ParseResponse (response.go lines 70-169), modelled from the point where
the outer ReadMIMEHeader has produced the header block; stream is the
unread input after the blank line.  The stages follow the source order: the
empty Content-Type guard, the Content-Length body read, the allow-list
check, the header-copy loop (skipped for the JSON event type), and the
content-type switch. -/
def ParseResponse (header : List (String × String)) (stream : List Char) : ParseOutcome :=
  if hGet header "Content-Type" = "" then .err "Parse EOF"
  else
    match bodyRead (hGet header "Content-Length") stream with
    | .errRes e => .err e
    | .crashRes e => .crash e
    | .done body rest =>
      if IsExistInSlice (hGet header "Content-Type") AllowedContentTypes then
        typeSwitch (hGet header "Content-Type") header
          (if hGet header "Content-Type" ≠ "text/event-json" then processHeaders header else [])
          body rest
      else .err (hGet header "Content-Type" ++ " is not allowed")

/-- The protocol message terminator. -/
def EndOfMessage : String := "\r\n\r\n"

/-- A command write: the bytes put on the socket and whether the caller then
waits for the correlated reply (Send) or returns at once (SendAsync). -/
structure CommandWrite where
  bytes : String
  waitsForReply : Bool
deriving DecidableEq, Repr

/-- Send (connection source): writes the command plus the terminator and
waits for the handed-off reply; only the written bytes and the waiting mode
are modelled here. -/
def SendWrite (cmd : String) : CommandWrite :=
  ⟨cmd ++ EndOfMessage, true⟩

/-- SendAsync (connection source): same write path as Send, no wait. -/
def SendAsyncWrite (cmd : String) : CommandWrite :=
  ⟨cmd ++ EndOfMessage, false⟩

/-- Api from command.go: Send with the api verb put in front. -/
def Api (cmd : String) : CommandWrite :=
  SendWrite ("api " ++ cmd)

/-- BgApi from command.go, as written in the source: SendAsync with the
verb string "api " put in front of the command. -/
def BgApi (cmd : String) : CommandWrite :=
  SendAsyncWrite ("api " ++ cmd)

/-- Exit from command.go: SendAsync of the exit verb. -/
def ExitWrite : CommandWrite :=
  SendAsyncWrite "exit"

/-- Result of a structured send operation: a validation rejection before
anything is written, or the bytes actually written (after which the
operation waits on the shared reply slot, which is not modelled). -/
inductive SendAction where
  | reject : String → SendAction
  | write : String → SendAction
deriving DecidableEq, Repr

/-- Discriminator for SendAction. -/
def SendAction.isReject : SendAction → Bool
  | .reject _ => true
  | .write _ => false

/-- Concatenation of a rendered fragment per list element. -/
def strConcatMap (f : String → String) : List String → String
  | [] => ""
  | s :: rest => f s ++ strConcatMap f rest

/-- SendEvent (connection source lines 189-233): writes the sendevent verb,
every supplied header line followed by CR LF, and a closing CR LF.  The
source performs no validation whatsoever on the header lines. -/
def SendEvent (eventHeaders : List String) : SendAction :=
  .write ("sendevent " ++ strConcatMap (fun h => h ++ "\r\n") eventHeaders ++ "\r\n")

/-- The header loop of SendMsg: each key is rejected when it contains the
line terminator; a non-empty value is rejected likewise; an empty value is
skipped; accepted pairs are rendered as one header line each. -/
def sendMsgHeaderLines : List (String × String) → Except String String
  | [] => .ok ""
  | (k, v) :: rest =>
    if strContains k "\r\n" then .error (k ++ ": invalid")
    else if v = "" then sendMsgHeaderLines rest
    else if strContains v "\r\n" then .error (v ++ ": invalid")
    else (sendMsgHeaderLines rest).map (fun s => k ++ ": " ++ v ++ "\n" ++ s)

/-- SendMsg (connection source lines 273-330): builds the sendmsg command,
rejecting a non-empty uuid, a header key, or a non-empty header value that
contains the line terminator before anything is written; the Go header map
is modelled as an association list in iteration order.  The data payload is
appended only when the map carries a lower-case content-length entry. -/
def SendMsg (msg : List (String × String)) (uuid data : String) : SendAction :=
  if 0 < uuid.length && strContains uuid "\r\n" then .reject "invalid uuid"
  else
    match sendMsgHeaderLines msg with
    | .error e => .reject e
    | .ok lines =>
      .write ("sendmsg" ++ (if 0 < uuid.length then " " ++ uuid else "") ++ "\n" ++ lines ++
        "\n" ++ (if 0 < (hGet msg "content-length").length && 0 < data.length then data else "") ++
        EndOfMessage)

/-- The result of one ReadMIMEHeader call inside Authenticate: the header
entries obtained and the error value, if any, the call returned alongside
them (the source tolerates exactly the error whose text is EOF). -/
structure MIMEReadResult where
  headers : List (String × String)
  errMsg : Option String
deriving DecidableEq, Repr

/-- A read error Authenticate treats as fatal: any error other than EOF. -/
def fatalReadErr : Option String → Bool
  | none => false
  | some e => e != "EOF"

/-- Authenticate (connection source lines 89-112): reads the challenge
header block, requires its Content-Type to be auth/request, writes the auth
command, reads the reply block and requires its Reply-Text to be exactly
the acceptance string; the background receive loop is started only on the
success path.  The pair carries the error result and whether the loop was
started. -/
def Authenticate (read1 : MIMEReadResult) (writeErr : Option String) (read2 : MIMEReadResult) :
    Except String Unit × Bool :=
  if fatalReadErr read1.errMsg then (.error (read1.errMsg.getD ""), false)
  else if hGet read1.headers "Content-Type" ≠ "auth/request" then
    (.error "auth request is invalid", false)
  else
    match writeErr with
    | some e => (.error e, false)
    | none =>
      if fatalReadErr read2.errMsg then (.error (read2.errMsg.getD ""), false)
      else if hGet read2.headers "Reply-Text" ≠ "+OK accepted" then
        (.error "invalid password", false)
      else (.ok (), true)

/-- The lifecycle state touched by Close: the one-time guard of the
sync.Once, the response channel, the socket, the closed flag, and two
counters observing how often the teardown body ran and how many socket
close errors were logged. -/
structure ConnState where
  onceDone : Bool
  chanClosed : Bool
  sockClosed : Bool
  isClosed : Bool
  teardowns : Nat
  loggedCloseErrors : Nat
deriving DecidableEq, Repr

/-- The state of a freshly built connection. -/
def newConnState : ConnState :=
  ⟨false, false, false, false, 0, 0⟩

/-- Closing the response channel: a Go close of an already closed channel
panics, modelled as none. -/
def closeChan (s : ConnState) : Option ConnState :=
  if s.chanClosed then none else some { s with chanClosed := true }

/-- The close body (connection source lines 255-264): close the response
channel, raise the closed flag, close the socket; a socket close error is
logged and never returned. -/
def closeBody (s : ConnState) (sockErr : Option String) : Option ConnState :=
  (closeChan s).map (fun s1 =>
    { s1 with
      isClosed := true
      sockClosed := true
      teardowns := s1.teardowns + 1
      loggedCloseErrors := s1.loggedCloseErrors + (if sockErr.isSome then 1 else 0) })

/-- Close (connection source lines 250-252): the close body guarded by the
sync.Once, so a second call is a no-op; sockErr is the error the socket
close would report.  Close returns no error value of its own. -/
def Close (s : ConnState) (sockErr : Option String) : Option ConnState :=
  if s.onceDone then some s
  else closeBody { s with onceDone := true } sockErr

/-- A state with its log counter erased, to compare teardown outcomes
independently of logging. -/
def eraseLog (s : ConnState) : ConnState :=
  { s with loggedCloseErrors := 0 }

/-- GetHeader (response.go lines 52-55): url.PathUnescape is applied to the
looked-up value on every call and its error is discarded, so a value that
fails to decode yields PathUnescape's zero string result; a missing key
reads as the empty string and stays empty. -/
def GetHeader (r : ESLResponse) (header : String) : String :=
  match pathUnescape (hGet r.Headers header) with
  | some v => v
  | none => ""

/-- A contained pattern forces the container to be non-empty (used to show
the CR-LF checks of SendMsg subsume the emptiness guards). -/
theorem strContains_data_ne_nil (v pat : String) (hpat : pat.data ≠ [])
    (h : strContains v pat = true) : v.data ≠ [] := by
  intro hv
  rw [strContains, hv] at h
  simp only [containsSub, List.isEmpty_iff] at h
  exact hpat h

/-- A contained pattern forces positive length. -/
theorem strContains_length_pos (v pat : String) (hpat : pat.data ≠ [])
    (h : strContains v pat = true) : 0 < v.length := by
  have hd := strContains_data_ne_nil v pat hpat h
  obtain ⟨l⟩ := v
  cases l with
  | nil => exact absurd rfl hd
  | cons c cs => simp [String.length]

/-- Looking a key up in the processed header list finds the processed value
of its entry, provided keys are not duplicated. -/
theorem lookup_processHeaders (h : List (String × String)) (k v : String)
    (hnd : (h.map Prod.fst).Nodup) (hmem : (k, v) ∈ h) :
    (processHeaders h).lookup k = some (processVal v) := by
  induction h with
  | nil => cases hmem
  | cons hd tl ih =>
    obtain ⟨k0, v0⟩ := hd
    simp only [List.map_cons, List.nodup_cons] at hnd
    rcases List.mem_cons.mp hmem with heq | htl
    · obtain ⟨rfl, rfl⟩ := Prod.mk.injEq .. ▸ heq
      simp [processHeaders, List.lookup]
    · have hk : k ≠ k0 := by
        intro hkk
        exact hnd.1 (hkk ▸ List.mem_map.mpr ⟨(k, v), htl, rfl⟩)
      simpa [processHeaders, List.lookup, beq_eq_false_iff_ne.mpr hk] using
        ih hnd.2 htl

/-- Filtering one key out leaves lookups of other keys unchanged. -/
theorem lookup_filter_key_ne (l : List (String × String)) (k b : String) (h : k ≠ b) :
    (l.filter (fun p => p.1 != b)).lookup k = l.lookup k := by
  induction l with
  | nil => rfl
  | cons hd tl ih =>
    obtain ⟨k0, v0⟩ := hd
    by_cases hb : k0 = b
    · subst hb
      simp [List.filter_cons, List.lookup, beq_eq_false_iff_ne.mpr h, ih]
    · by_cases hk : k = k0
      · subst hk
        simp [List.filter_cons, bne_iff_ne, hb, List.lookup]
      · simp [List.filter_cons, bne_iff_ne, hb, List.lookup,
          beq_eq_false_iff_ne.mpr hk, ih]

/-- Filtering a key out makes its own lookup fail. -/
theorem lookup_filter_key_self (l : List (String × String)) (b : String) :
    (l.filter (fun p => p.1 != b)).lookup b = none := by
  induction l with
  | nil => rfl
  | cons hd tl ih =>
    obtain ⟨k0, v0⟩ := hd
    by_cases hb : k0 = b
    · subst hb; simpa [List.filter_cons] using ih
    · simp [List.filter_cons, bne_iff_ne, hb, List.lookup,
        beq_eq_false_iff_ne.mpr (Ne.symm hb), ih]

/-- A string-valued member is found by lookup in the string-header
projection, provided keys are not duplicated. -/
theorem lookup_strHeaders_mem (kvs : List (String × JSValue)) (k s : String)
    (hnd : (kvs.map Prod.fst).Nodup) (hmem : (k, JSValue.str s) ∈ kvs) :
    (strHeaders kvs).lookup k = some s := by
  induction kvs with
  | nil => cases hmem
  | cons hd tl ih =>
    obtain ⟨k0, v0⟩ := hd
    simp only [List.map_cons, List.nodup_cons] at hnd
    rcases List.mem_cons.mp hmem with heq | htl
    · obtain ⟨rfl, rfl⟩ := Prod.mk.injEq .. ▸ heq
      simp [strHeaders, List.lookup]
    · have hk : k ≠ k0 := by
        intro hkk
        exact hnd.1 (hkk ▸ List.mem_map.mpr ⟨(k, JSValue.str s), htl, rfl⟩)
      have htail := ih hnd.2 htl
      cases v0 with
      | str s0 =>
        simpa [strHeaders, List.lookup, beq_eq_false_iff_ne.mpr hk] using htail
      | num n => simpa [strHeaders] using htail
      | bool b => simpa [strHeaders] using htail
      | null => simpa [strHeaders] using htail
      | arr a => simpa [strHeaders] using htail
      | obj o => simpa [strHeaders] using htail

/-- A key with no string-valued member is not found in the string-header
projection. -/
theorem lookup_strHeaders_none (kvs : List (String × JSValue)) (k : String)
    (h : ∀ s, (k, JSValue.str s) ∉ kvs) :
    (strHeaders kvs).lookup k = none := by
  induction kvs with
  | nil => rfl
  | cons hd tl ih =>
    obtain ⟨k0, v0⟩ := hd
    have htl : ∀ s, (k, JSValue.str s) ∉ tl := fun s hs => h s (List.mem_cons_of_mem _ hs)
    have htail := ih htl
    cases v0 with
    | str s0 =>
      have hk : k ≠ k0 := by
        intro hkk
        exact h s0 (hkk ▸ List.mem_cons_self _ _)
      simpa [strHeaders, List.lookup, beq_eq_false_iff_ne.mpr hk] using htail
    | num n => simpa [strHeaders] using htail
    | bool b => simpa [strHeaders] using htail
    | null => simpa [strHeaders] using htail
    | arr a => simpa [strHeaders] using htail
    | obj o => simpa [strHeaders] using htail

/-- Whenever the event-plain arm succeeds, the headers of the frame are the
ones the copy loop produced. -/
theorem eventPlainStage_ok_headers (h0 : List (String × String)) (b : String)
    (r : List Char) (fr : ESLResponse) (r2 : List Char)
    (h : eventPlainStage h0 b r = .ok fr r2) : fr.Headers = h0 := by
  unfold eventPlainStage at h
  repeat' split at h
  all_goals first
    | (cases h; rfl)
    | simp at h

/-- Whenever the content-type switch succeeds on a type other than the JSON
event type, the headers of the frame are the ones the copy loop produced. -/
theorem typeSwitch_ok_headers (ct : String) (header h0 : List (String × String))
    (b : String) (r : List Char) (fr : ESLResponse) (r2 : List Char)
    (hct : ct ≠ "text/event-json")
    (h : typeSwitch ct header h0 b r = .ok fr r2) : fr.Headers = h0 := by
  unfold typeSwitch at h
  repeat' split at h
  all_goals first
    | (cases h; rfl)
    | simp at h
    | (exact eventPlainStage_ok_headers h0 b r fr r2 h)

/-- Whenever ParseResponse succeeds on a content type other than the JSON
event type, the frame headers are exactly the processed copies of the raw
header entries. -/
theorem parseResponse_ok_headers (hdr : List (String × String)) (stream : List Char)
    (fr : ESLResponse) (rest : List Char)
    (hok : ParseResponse hdr stream = .ok fr rest)
    (hct : hGet hdr "Content-Type" ≠ "text/event-json") :
    fr.Headers = processHeaders hdr := by
  unfold ParseResponse at hok
  repeat' split at hok
  all_goals first
    | simp at hok
    | (exact typeSwitch_ok_headers _ _ _ _ _ _ _ hct hok)

/-- Discriminator for the header-rendering loop of SendMsg. -/
def exceptFailed : Except String String → Bool
  | .error _ => true
  | .ok _ => false

/-- The header-rendering loop of SendMsg fails whenever some entry carries
the line terminator in its key or value. -/
theorem sendMsgHeaderLines_fails (msg : List (String × String)) (k v : String)
    (hmem : (k, v) ∈ msg)
    (hbad : strContains k "\r\n" = true ∨ strContains v "\r\n" = true) :
    exceptFailed (sendMsgHeaderLines msg) = true := by
  induction msg with
  | nil => cases hmem
  | cons hd tl ih =>
    obtain ⟨k0, v0⟩ := hd
    rcases List.mem_cons.mp hmem with heq | htl
    · obtain ⟨rfl, rfl⟩ := Prod.mk.injEq .. ▸ heq
      rcases hbad with hk | hv
      · simp [sendMsgHeaderLines, hk, exceptFailed]
      · have hne : v ≠ "" := by
          intro hv0
          exact strContains_data_ne_nil v "\r\n" (by decide) hv (by rw [hv0])
        by_cases hk0 : strContains k "\r\n" = true
        · simp [sendMsgHeaderLines, hk0, exceptFailed]
        · simp [sendMsgHeaderLines, hk0, hne, hv, exceptFailed]
    · have htail := ih htl
      by_cases hk0 : strContains k0 "\r\n" = true
      · simp [sendMsgHeaderLines, hk0, exceptFailed]
      · by_cases hv0 : v0 = ""
        · simpa [sendMsgHeaderLines, hk0, hv0] using htail
        · by_cases hvc : strContains v0 "\r\n" = true
          · simp [sendMsgHeaderLines, hk0, hv0, hvc, exceptFailed]
          · cases hE : sendMsgHeaderLines tl with
            | error e => simp [sendMsgHeaderLines, hk0, hv0, hvc, hE, exceptFailed, Except.map]
            | ok l => rw [hE] at htail; simp [exceptFailed] at htail

/-- C1: response.go strips the first five bytes of a reply containing the
error marker unconditionally; the reply consisting of the bare four-byte
marker makes the slice expression panic instead of producing the claimed
CommandError. -/
theorem c1_err_reply_without_prefix_panics :
    ParseResponse [("Content-Type", "command/reply"), ("Reply-Text", "-ERR")] [] =
      .crash "slice bounds out of range" ∧
    strContains "-ERR" "-ERR" = true := by decide

/-- C3: strconv.Atoi accepts a negative Content-Length, after which the body
allocation panics, so a negative declared length is neither read correctly
nor rejected with an error as claimed. -/
theorem c3_negative_content_length_panics :
    ParseResponse [("Content-Type", "command/reply"), ("Content-Length", "-1")] [] =
      .crash "makeslice: len out of range" ∧
    atoi "-1" = some (-1) := by decide

/-- C8: an event-plain frame whose body is empty makes the nested header
read fail, and the error path slices five bytes off the empty outer body,
which panics instead of producing the claimed ProtocolError. -/
theorem c8_event_plain_short_outer_body_panics :
    ParseResponse [("Content-Type", "text/event-plain")] [] =
      .crash "slice bounds out of range" := by decide

/-- C9: BgApi writes the api verb, byte for byte the same command Api
writes, not the bgapi verb; only the waiting mode differs. -/
theorem c9_bgapi_writes_api_verb :
    BgApi "status" = ⟨"api status\r\n\r\n", false⟩ ∧
    ((BgApi "status").bytes == "bgapi status\r\n\r\n") = false ∧
    (BgApi "status").bytes = (Api "status").bytes := by decide

/-- C2 counterexample: a header value that is a lone percent sign fails to
decode, and the frame stores the empty string for it, not the raw value the
claim promises. -/
theorem c2_decode_failure_erases_value :
    ParseResponse [("Content-Type", "auth/request"), ("X-Bad", "%")] [] =
      .ok ⟨[("Content-Type", "auth/request"), ("X-Bad", "")], ""⟩ [] ∧
    queryUnescape "%" = none ∧
    (("" : String) == "%") = false := by decide

/-- C2 as amended: for every content type except the JSON event variant a
successful parse stores processVal of each raw header value, where a value
with no percent sign is kept unchanged, a decodable value is replaced by its
decoding, and a value whose decoding fails is replaced by the empty string
(the failure stays non-fatal). -/
theorem c2_header_copy_decoding (hdr : List (String × String)) (stream : List Char)
    (fr : ESLResponse) (rest : List Char) (k v : String)
    (hok : ParseResponse hdr stream = .ok fr rest)
    (hct : hGet hdr "Content-Type" ≠ "text/event-json")
    (hnd : (hdr.map Prod.fst).Nodup)
    (hmem : (k, v) ∈ hdr) :
    fr.Headers.lookup k = some (processVal v) ∧
    (strContains v "%" = false → processVal v = v) ∧
    (∀ d, strContains v "%" = true → queryUnescape v = some d → processVal v = d) ∧
    (strContains v "%" = true → queryUnescape v = none → processVal v = "") := by
  refine ⟨?_, ?_, ?_, ?_⟩
  · rw [parseResponse_ok_headers hdr stream fr rest hok hct]
    exact lookup_processHeaders hdr k v hnd hmem
  · intro hno; simp [processVal, hno]
  · intro d hc hq; simp [processVal, hc, hq]
  · intro hc hq; simp [processVal, hc, hq]

/-- C2 witness: a concrete run of the amended statement. -/
theorem c2_header_copy_decoding_witness :
    (ESLResponse.mk [("Content-Type", "auth/request"), ("X-Pct", "a b")] "").Headers.lookup
      "X-Pct" = some (processVal "a%20b") :=
  (c2_header_copy_decoding [("Content-Type", "auth/request"), ("X-Pct", "a%20b")] []
    ⟨[("Content-Type", "auth/request"), ("X-Pct", "a b")], ""⟩ [] "X-Pct" "a%20b"
    (by decide) (by decide) (by decide) (by decide)).1

/-- C4: when both header reads and the write succeed, Authenticate succeeds
exactly when the challenge type is auth/request and the reply text is the
acceptance string, and the background receive loop is started exactly when
it succeeds. -/
theorem c4_authenticate_iff (read1 read2 : MIMEReadResult) (w : Option String)
    (h1 : read1.errMsg = none) (hw : w = none) (h2 : read2.errMsg = none) :
    ((Authenticate read1 w read2).1 = .ok () ↔
      (hGet read1.headers "Content-Type" = "auth/request" ∧
       hGet read2.headers "Reply-Text" = "+OK accepted")) ∧
    ((Authenticate read1 w read2).2 = true ↔ (Authenticate read1 w read2).1 = .ok ()) := by
  by_cases hA : hGet read1.headers "Content-Type" = "auth/request" <;>
    by_cases hB : hGet read2.headers "Reply-Text" = "+OK accepted" <;>
    simp [Authenticate, fatalReadErr, hA, hB, h1, hw, h2]

/-- C4 witness: a concrete successful handshake. -/
theorem c4_authenticate_iff_witness :
    (Authenticate ⟨[("Content-Type", "auth/request")], none⟩ none
        ⟨[("Reply-Text", "+OK accepted")], none⟩).1 = .ok () :=
  (c4_authenticate_iff ⟨[("Content-Type", "auth/request")], none⟩
      ⟨[("Reply-Text", "+OK accepted")], none⟩ none rfl rfl rfl).1.mpr
    ⟨by decide, by decide⟩

/-- C5 counterexample: SendEvent writes a header line containing the line
terminator verbatim instead of rejecting it. -/
theorem c5_sendevent_no_validation :
    SendEvent ["a\r\nb"] = .write "sendevent a\r\nb\r\n\r\n" ∧
    strContains "a\r\nb" "\r\n" = true ∧
    (SendEvent ["a\r\nb"]).isReject = false := by decide

/-- C5 as amended: SendMsg rejects before writing whenever its uuid or some
header key or value contains the line terminator, while SendEvent never
rejects anything. -/
theorem c5_sendmsg_validates_sendevent_does_not (msg : List (String × String))
    (uuid data : String) (hs : List String)
    (hbad : (∃ k v, (k, v) ∈ msg ∧
        (strContains k "\r\n" = true ∨ strContains v "\r\n" = true)) ∨
      strContains uuid "\r\n" = true) :
    (SendMsg msg uuid data).isReject = true ∧ (SendEvent hs).isReject = false := by
  refine ⟨?_, rfl⟩
  unfold SendMsg
  by_cases hu : (decide (0 < uuid.length) && strContains uuid "\r\n") = true
  · simp [hu, SendAction.isReject]
  · rcases hbad with ⟨k, v, hm, hkv⟩ | hub
    · have hfail := sendMsgHeaderLines_fails msg k v hm hkv
      cases hE : sendMsgHeaderLines msg with
      | error e => simp [hu, hE, SendAction.isReject]
      | ok l => rw [hE] at hfail; simp [exceptFailed] at hfail
    · exact absurd (by
        simp [strContains_length_pos uuid "\r\n" (by decide) hub, hub]) hu

/-- C5 witness: a concrete rejected SendMsg next to a concrete accepted
SendEvent. -/
theorem c5_sendmsg_validates_witness :
    (SendMsg [("a\r\nb", "c")] "" "").isReject = true ∧
    (SendEvent ["x"]).isReject = false :=
  c5_sendmsg_validates_sendevent_does_not [("a\r\nb", "c")] "" "" ["x"]
    (Or.inl ⟨"a\r\nb", "c", by decide, Or.inl (by decide)⟩)

/-- C6: on a fresh connection a second Close is a no-op, the teardown body
runs exactly once, nothing panics (the Option stays populated), and a socket
close error changes nothing but the log counter. -/
theorem c6_close_idempotent (e1 e2 : Option String) :
    ((Close newConnState e1).bind (fun s => Close s e2) = Close newConnState e1) ∧
    ((Close newConnState e1).map ConnState.teardowns = some 1) ∧
    ((Close newConnState e1).map eraseLog = (Close newConnState e2).map eraseLog) := by
  cases e1 <;> cases e2 <;>
    simp [Close, closeBody, closeChan, newConnState, eraseLog]

/-- C7 counterexample: a JSON event whose reserved body member is the empty
string keeps that member in the headers, contrary to the claimed removal. -/
theorem c7_empty_body_member_kept :
    ParseResponse [("Content-Type", "text/event-json"), ("Content-Length", "12")]
        ("\x7b\"_body\":\"\"\x7d".data) =
      .ok ⟨[("_body", "")], ""⟩ [] ∧
    ([("_body", "")] : List (String × String)).lookup "_body" = some "" := by decide

/-- C7 as amended: for a JSON-object event body, a successful parse carries
exactly the string-valued members as headers; a present non-empty reserved
body member becomes the body and is removed; an absent one leaves the body
empty; and a present empty one leaves the body empty while staying in the
headers. -/
theorem c7_event_json_headers_body (hdr : List (String × String)) (stream : List Char)
    (body : String) (rest : List Char) (kvs : List (String × JSValue))
    (hct : hGet hdr "Content-Type" = "text/event-json")
    (hbody : bodyRead (hGet hdr "Content-Length") stream = .done body rest)
    (hjson : jsonUnmarshalMap body = some kvs)
    (hnd : (kvs.map Prod.fst).Nodup) :
    ParseResponse hdr stream =
      .ok ⟨(eventJsonTransform kvs).1, (eventJsonTransform kvs).2⟩ rest ∧
    (∀ k s, (k, JSValue.str s) ∈ kvs → k ≠ "_body" →
      (eventJsonTransform kvs).1.lookup k = some s) ∧
    (∀ k, (∀ s, (k, JSValue.str s) ∉ kvs) → (eventJsonTransform kvs).1.lookup k = none) ∧
    (∀ s, ("_body", JSValue.str s) ∈ kvs → s ≠ "" →
      (eventJsonTransform kvs).2 = s ∧ (eventJsonTransform kvs).1.lookup "_body" = none) ∧
    ((∀ s, ("_body", JSValue.str s) ∉ kvs) → (eventJsonTransform kvs).2 = "") ∧
    (("_body", JSValue.str "") ∈ kvs →
      (eventJsonTransform kvs).2 = "" ∧
      (eventJsonTransform kvs).1.lookup "_body" = some "") := by
  refine ⟨?_, ?_, ?_, ?_, ?_, ?_⟩
  · unfold ParseResponse typeSwitch
    rw [hct, hbody]
    simp [hjson, IsExistInSlice, AllowedContentTypes]
  · intro k s hm hk
    have hls := lookup_strHeaders_mem kvs k s hnd hm
    by_cases hb : hGet (strHeaders kvs) "_body" = ""
    · simpa [eventJsonTransform, hb] using hls
    · simp only [eventJsonTransform, if_pos hb]
      rw [lookup_filter_key_ne _ _ _ hk]
      exact hls
  · intro k hknone
    have hls := lookup_strHeaders_none kvs k hknone
    by_cases hb : hGet (strHeaders kvs) "_body" = ""
    · simpa [eventJsonTransform, hb] using hls
    · simp only [eventJsonTransform, if_pos hb]
      by_cases hk : k = "_body"
      · subst hk; exact lookup_filter_key_self _ _
      · rw [lookup_filter_key_ne _ _ _ hk]; exact hls
  · intro s hm hs0
    have hls := lookup_strHeaders_mem kvs "_body" s hnd hm
    have hb : hGet (strHeaders kvs) "_body" = s := by simp [hGet, hls]
    have hbne : hGet (strHeaders kvs) "_body" ≠ "" := by rw [hb]; exact hs0
    refine ⟨?_, ?_⟩
    · simp [eventJsonTransform, hb, hs0]
    · simp only [eventJsonTransform, if_pos hbne]
      exact lookup_filter_key_self _ _
  · intro hnone
    have hls := lookup_strHeaders_none kvs "_body" hnone
    have hb : hGet (strHeaders kvs) "_body" = "" := by simp [hGet, hls]
    simp [eventJsonTransform, hb]
  · intro hm
    have hls := lookup_strHeaders_mem kvs "_body" "" hnd hm
    have hb : hGet (strHeaders kvs) "_body" = "" := by simp [hGet, hls]
    exact ⟨by simp [eventJsonTransform, hb], by simp [eventJsonTransform, hb, hls]⟩

/-- C7 witness: a concrete two-member event object parsed end to end. -/
theorem c7_event_json_headers_body_witness :
    ParseResponse [("Content-Type", "text/event-json"), ("Content-Length", "30")]
        ("\x7b\"Event-Name\":\"X\",\"_body\":\"Y\"\x7d".data) =
      .ok ⟨(eventJsonTransform [("Event-Name", JSValue.str "X"),
              ("_body", JSValue.str "Y")]).1,
           (eventJsonTransform [("Event-Name", JSValue.str "X"),
              ("_body", JSValue.str "Y")]).2⟩ [] :=
  (c7_event_json_headers_body [("Content-Type", "text/event-json"), ("Content-Length", "30")]
    ("\x7b\"Event-Name\":\"X\",\"_body\":\"Y\"\x7d".data)
    "\x7b\"Event-Name\":\"X\",\"_body\":\"Y\"\x7d" []
    [("Event-Name", JSValue.str "X"), ("_body", JSValue.str "Y")]
    (by decide) (by decide) (by rfl) (by decide)).1

/-- C10: GetHeader re-decodes the stored value on every read, returns the
empty string when that decoding fails, and returns the empty string for an
absent key. -/
theorem c10_getheader_redecodes (r : ESLResponse) (k : String) :
    (r.Headers.lookup k = none → GetHeader r k = "") ∧
    (∀ v, r.Headers.lookup k = some v → pathUnescape v = none → GetHeader r k = "") ∧
    (∀ v d, r.Headers.lookup k = some v → pathUnescape v = some d → GetHeader r k = d) := by
  refine ⟨?_, ?_, ?_⟩
  · intro h
    simp [GetHeader, hGet, h, pathUnescape, unescapeL]
  · intro v hl hp
    simp [GetHeader, hGet, hl, hp]
  · intro v d hl hp
    simp [GetHeader, hGet, hl, hp]

/-- C10 witness: a failing decode, a succeeding decode, and an absent key. -/
theorem c10_getheader_redecodes_witness :
    GetHeader ⟨[("A", "%zz"), ("B", "a%20b")], ""⟩ "A" = "" ∧
    GetHeader ⟨[("A", "%zz"), ("B", "a%20b")], ""⟩ "B" = "a b" ∧
    GetHeader ⟨[("A", "%zz"), ("B", "a%20b")], ""⟩ "C" = "" :=
  ⟨(c10_getheader_redecodes ⟨[("A", "%zz"), ("B", "a%20b")], ""⟩ "A").2.1 "%zz"
      (by decide) (by decide),
   (c10_getheader_redecodes ⟨[("A", "%zz"), ("B", "a%20b")], ""⟩ "B").2.2 "a%20b" "a b"
      (by decide) (by decide),
   (c10_getheader_redecodes ⟨[("A", "%zz"), ("B", "a%20b")], ""⟩ "C").1 (by decide)⟩

end Goesl
